import Mathlib

/-!
Shallow embedding of the crawl scheduler in `src/cli.js` (the CLI entry and
the `Crawler` class from `lib/crawler`): URL normalization, the per-page
request-filter policy, the visited-ledger/enqueue logic, the per-task
navigation protocol, the login-form post-load recursion, the concurrency
default, and the screenshot file-name derivation.
-/

namespace Inhuman

/-- JS `s.split("#")[0]`: the part of the string before the first `#`. -/
def stripFragment (s : String) : String :=
  String.mk (s.data.takeWhile (fun c => c ≠ '#'))

/-- JS `s.split("?")[0]`: the part of the string before the first `?`. -/
def stripQuery (s : String) : String :=
  String.mk (s.data.takeWhile (fun c => c ≠ '?'))

/-- JS `request._url.split("?")[0].split("#")[0]` (the normalized request URL
used by the `page.on("request")` handler). -/
def normalizeUrl (s : String) : String :=
  stripFragment (stripQuery s)

/-- `pat` occurs as a contiguous substring of the character list
(JS `s.indexOf(pat) !== -1`). -/
def isSubListOf : List Char → List Char → Bool
  | pat, [] => pat.isEmpty
  | pat, c :: rest => pat.isPrefixOf (c :: rest) || isSubListOf pat rest

/-- JS `s.indexOf(pat) !== -1`: `pat` occurs as a substring of `s`. -/
def containsSubstr (s pat : String) : Bool :=
  isSubListOf pat.data s.data

/-- `BLOCKED_RESOURCE_TYPES` from `lib/crawler`. -/
def BLOCKED_RESOURCE_TYPES : List String :=
  ["image", "media", "font", "texttrack", "object", "beacon", "imageset"]

/-- `SKIPPED_RESOURCES` from `lib/crawler` (commented-out entries omitted,
as in the source). -/
def SKIPPED_RESOURCES : List String :=
  ["quantserve", "adzerk", "doubleclick", "adition", "exelator",
   "sharethrough", "cdn.api.twitter", "google-analytics", "facebook",
   "analytics", "optimizely", "clicktale", "mixpanel", "zedo", "clicksor",
   "favicon.ico"]

/-- JS `s.indexOf(pat) === 0`: `pat` is a prefix of `s`. -/
def startsWith (s pat : String) : Bool :=
  pat.data.isPrefixOf s.data

/-- `Crawler._isSentryResource`: exact-prefix match against the two
diagnostics endpoints (JS `url.indexOf(p) === 0`). -/
def isSentryResource (url : String) : Bool :=
  startsWith url "https://browser.sentry-cdn.com"
    || startsWith url "https://sentry.io/api/"

/-- The decision the `page.on("request")` handler takes:
`request.continue()` or `request.abort()`. -/
inductive Decision
  | allow
  | block
deriving DecidableEq

/-- An intercepted network request: its raw `_url` and resource type. -/
structure Request where
  url : String
  resourceType : String
deriving DecidableEq

/-- Mutable state of one page load seen by the request handler:
`resourceAttempts` (a JS object defaulting to 0) and `hasTimedOut`. -/
structure PageState where
  resourceAttempts : String → Nat
  hasTimedOut : Bool

/-- State at the start of a page load: `_request` creates
`resourceAttempts = {}` and `hasTimedOut = false` fresh on each call. -/
def initialPageState : PageState :=
  { resourceAttempts := fun _ => 0, hasTimedOut := false }

/-- The `page.on("request")` handler in `Crawler._request`: increments the
attempt counter for the normalized URL, then walks the if/else chain —
sentry allow-list, timed-out page, retry ceiling, blocked resource kinds
and substring denylists, and the document-only domain rule (`isAllowed`
stands for `Crawler._isLinkAllowed`, whose `utils` implementation is not
part of the embedded sources). -/
def onRequest (blockList : List String) (isAllowed : String → Bool)
    (st : PageState) (req : Request) : PageState × Decision :=
  let requestUrl := normalizeUrl req.url
  let n := st.resourceAttempts requestUrl + 1
  let st1 : PageState :=
    { st with resourceAttempts := fun u => if u = requestUrl then n else st.resourceAttempts u }
  let d : Decision :=
    if isSentryResource requestUrl then
      .allow
    else if st.hasTimedOut then
      .block
    else if n > 5 then
      .block
    else if BLOCKED_RESOURCE_TYPES.contains req.resourceType
        || SKIPPED_RESOURCES.any (fun r => containsSubstr requestUrl r)
        || blockList.any (fun r => containsSubstr requestUrl r) then
      .block
    else if req.resourceType == "document" && !isAllowed requestUrl then
      .block
    else
      .allow
  (st1, d)

/-- Run a sequence of intercepted requests through the handler, collecting
the decision taken for each. -/
def runRequests (blockList : List String) (isAllowed : String → Bool) :
    PageState → List Request → PageState × List Decision
  | st, [] => (st, [])
  | st, r :: rs =>
    let p := onRequest blockList isAllowed st r
    let q := runRequests blockList isAllowed p.1 rs
    (q.1, p.2 :: q.2)

/-- A scheduled unit of work, as inserted by `Crawler.queue` via
`this._queue.push(url, options, 0)` (options carry no scheduling
information and are omitted). -/
structure Task where
  url : String
  priority : Nat
deriving DecidableEq

/-- The Orchestrator state the enqueue paths touch: the visited ledger
(`this._visited`, a JS `Set`) and the pending tasks of the work queue. -/
structure CrawlerState where
  visited : List String
  queue : List Task
deriving DecidableEq

/-- State before any seeding: empty ledger, empty queue. -/
def initCrawler : CrawlerState := { visited := [], queue := [] }

/-- Modelled from the spec: `PriorityQueue.push` lives in `lib/queue.js`,
which is not among the embedded sources; per §4.2 a `push` call inserts one
Task (deduplication happens at the call site, not inside the queue). -/
def pushTask (s : CrawlerState) (url : String) (priority : Nat) : CrawlerState :=
  { s with queue := s.queue ++ [{ url := url, priority := priority }] }

/-- `Crawler.queue`: add the URL to the visited ledger and push a Task at
priority 0. The ledger is not consulted here. -/
def queue (s : CrawlerState) (url : String) : CrawlerState :=
  pushTask { s with visited := url :: s.visited } url 0

/-- One iteration of the `links.forEach` body of `Crawler._discoverLinks`:
skip a falsy (empty) href, strip the fragment, and enqueue only when the
link is allowed, not yet visited, and matches no `SKIPPED_RESOURCES`
substring. `isAllowed` stands for `Crawler._isLinkAllowed`. -/
def discoverLink (isAllowed : String → Bool) (s : CrawlerState) (href : String) :
    CrawlerState :=
  if href = "" then s
  else if isAllowed (stripFragment href)
      && !s.visited.contains (stripFragment href)
      && !SKIPPED_RESOURCES.any (fun r => containsSubstr (stripFragment href) r) then
    queue s (stripFragment href)
  else
    s

/-- `Crawler._discoverLinks` over the hrefs of the anchors found on a page. -/
def discoverLinks (isAllowed : String → Bool) (s : CrawlerState)
    (hrefs : List String) : CrawlerState :=
  hrefs.foldl (discoverLink isAllowed) s

/-- Outcome of `page.goto` in `Crawler._request`: success, a
`TimeoutError`, or any other navigation error. -/
inductive NavOutcome
  | success
  | timeout
  | failure
deriving DecidableEq

/-- Outcome of the post-load block (`setViewport` + `_processPage`). -/
inductive PostOutcome
  | ok
  | error
deriving DecidableEq

/-- Observable result of one `Crawler._request` run: the `(url, error)`
pairs appended to `this._errors`, whether the page was closed, whether the
post-load block was entered, and the final `hasTimedOut` flag. -/
structure TaskResult where
  errors : List (String × String)
  pageClosed : Bool
  postLoadRun : Bool
  hasTimedOut : Bool
deriving DecidableEq

/-- Control flow of `Crawler._request` after `page.goto`: a non-timeout
error records the error and returns `page.close()`; a timeout records the
error and sets `hasTimedOut`; in both remaining paths the post-load block
runs, its own error is recorded in `catch`, and `finally` closes the page. -/
def requestTask (url navErr postErr : String) (nav : NavOutcome)
    (post : PostOutcome) : TaskResult :=
  match nav with
  | .failure =>
    { errors := [(url, navErr)], pageClosed := true, postLoadRun := false
      hasTimedOut := false }
  | .timeout =>
    match post with
    | .ok =>
      { errors := [(url, navErr)], pageClosed := true, postLoadRun := true
        hasTimedOut := true }
    | .error =>
      { errors := [(url, navErr), (url, postErr)], pageClosed := true
        postLoadRun := true, hasTimedOut := true }
  | .success =>
    match post with
    | .ok =>
      { errors := [], pageClosed := true, postLoadRun := true
        hasTimedOut := false }
    | .error =>
      { errors := [(url, postErr)], pageClosed := true, postLoadRun := true
        hasTimedOut := false }

/-- Recursion structure of `Crawler._processPage`: if some form config
matches the current URL, the form is submitted and `_processPage` recurses
on the post-submit URL (`page.url()` after `waitForNavigation`, modelled by
`next`) with no guard. `fuel` bounds the unfolding; `none` means the run
does not finish within `fuel` recursive calls; `some n` means it finishes
after `n` form submissions. -/
def processPage (formMatches : String → Bool) (next : String → String) :
    Nat → String → Option Nat
  | 0, _ => none
  | fuel + 1, url =>
    if formMatches url then
      match processPage formMatches next fuel (next url) with
      | none => none
      | some n => some (n + 1)
    else
      some 0

/-- CLI line 41: `argv.concurrency || os.cpus().length - 1`, with JS
falsiness of `undefined` and `0` made explicit. -/
def cliMaxConcurrency : Option Int → Int → Int
  | some c, cpus => if c = 0 then cpus - 1 else c
  | none, cpus => cpus - 1

/-- `Crawler` constructor: `options.maxConcurrency || 5`. -/
def crawlerMaxConcurrency (opt : Int) : Int :=
  if opt = 0 then 5 else opt

/-- The ceiling the work queue actually receives when the CLI drives the
crawler: the CLI default threaded through the constructor fallback. -/
def effectiveMaxConcurrency (c : Option Int) (cpus : Int) : Int :=
  crawlerMaxConcurrency (cliMaxConcurrency c cpus)

/-- The character rewrite of `pathname.replace(/(\.|\/|:|%|#)/g, "_")`. -/
def jsReplaceSpecialChar (c : Char) : Char :=
  if c == '.' || c == '/' || c == ':' || c == '%' || c == '#' then '_' else c

/-- Screenshot file name in `Crawler._processPage`: rewrite the pathname's
special characters to `_`, truncate to 100 characters when longer, append
`.jpeg`. -/
def screenshotFileName (pathname : String) : String :=
  let f := String.mk (pathname.data.map jsReplaceSpecialChar)
  let f := if f.length > 100 then String.mk (f.data.take 100) else f
  f ++ ".jpeg"

/-- None of the handler's non-telemetry, non-timeout, non-ceiling blocking
rules fires for this request: not a blocked resource kind, no denylist
substring, and not an out-of-domain document navigation. -/
def NoBlockingRule (blockList : List String) (isAllowed : String → Bool)
    (req : Request) : Prop :=
  isSentryResource (normalizeUrl req.url) = false
  ∧ BLOCKED_RESOURCE_TYPES.contains req.resourceType = false
  ∧ SKIPPED_RESOURCES.any (fun r => containsSubstr (normalizeUrl req.url) r) = false
  ∧ blockList.any (fun r => containsSubstr (normalizeUrl req.url) r) = false
  ∧ (req.resourceType == "document" && !isAllowed (normalizeUrl req.url)) = false

/-- A mixed page load: five stylesheet requests to one URL followed by six
script requests to another, exercising the per-URL attempt counters. -/
def demoLoad : List Request :=
  List.replicate 5 { url := "https://example.com/style.css", resourceType := "stylesheet" }
    ++ List.replicate 6 { url := "https://example.com/app.js?v=1", resourceType := "script" }

/-- Invariant tying the work queue to the visited ledger: every pending
Task's URL is fragment-free and recorded in the ledger, and no two pending
Tasks share a URL. -/
def LedgerInv (s : CrawlerState) : Prop :=
  (∀ t ∈ s.queue, stripFragment t.url = t.url ∧ t.url ∈ s.visited)
  ∧ s.queue.Pairwise (fun a b => a.url ≠ b.url)

lemma takeWhile_takeWhile_self (p : Char → Bool) (l : List Char) :
    (l.takeWhile p).takeWhile p = l.takeWhile p := by
  induction l with
  | nil => rfl
  | cons a l ih =>
    by_cases h : p a
    · simp [List.takeWhile_cons, h, ih]
    · simp [List.takeWhile_cons, h]

lemma stripFragment_idem (s : String) :
    stripFragment (stripFragment s) = stripFragment s := by
  unfold stripFragment
  exact congrArg String.mk (takeWhile_takeWhile_self _ s.data)

lemma jsReplaceSpecialChar_not_special (a : Char) :
    jsReplaceSpecialChar a ≠ '.' ∧ jsReplaceSpecialChar a ≠ '/'
    ∧ jsReplaceSpecialChar a ≠ ':' ∧ jsReplaceSpecialChar a ≠ '%'
    ∧ jsReplaceSpecialChar a ≠ '#' := by
  unfold jsReplaceSpecialChar
  split
  · exact ⟨by decide, by decide, by decide, by decide, by decide⟩
  · rename_i hcond
    simp only [Bool.or_eq_true, beq_iff_eq, not_or] at hcond
    push_neg at hcond
    tauto

/-- Claim C2: a request whose normalized URL matches the telemetry allow-list is
decided `allow` no matter what the rest of the page state or request looks
like — timed-out page, exhausted attempt counter, blocked resource kind,
denylisted substring, disallowed domain. -/
theorem c2_telemetry_always_allowed (blockList : List String)
    (isAllowed : String → Bool) (st : PageState) (req : Request)
    (h : isSentryResource (normalizeUrl req.url) = true) :
    (onRequest blockList isAllowed st req).2 = Decision.allow := by
  simp [onRequest, h]

/-- Claim C2 witness: a Sentry API request on a timed-out page with 99 prior
attempts and a blocked resource kind is still allowed. -/
theorem c2_witness :
    (onRequest [] (fun _ => false)
      { resourceAttempts := fun _ => 99, hasTimedOut := true }
      { url := "https://sentry.io/api/1/store/?key=1", resourceType := "image" }).2
      = Decision.allow :=
  c2_telemetry_always_allowed [] (fun _ => false) _ _ (by decide)

/-- Claim C5: the allowed-domain rule is gated on resource kind `document`; for
any other resource kind, the handler's output does not depend on the
domain predicate at all — the request is judged only by the other rules. -/
theorem c5_domain_rule_documents_only (blockList : List String)
    (st : PageState) (req : Request) (h : req.resourceType ≠ "document")
    (f g : String → Bool) :
    onRequest blockList f st req = onRequest blockList g st req := by
  have hb : (req.resourceType == "document") = false := beq_eq_false_iff_ne.mpr h
  simp [onRequest, hb]

/-- Claim C5 witness: a script request to a domain the predicate rejects is
decided identically whether the domain predicate rejects everything or
accepts everything. -/
theorem c5_witness :
    onRequest [] (fun _ => false) initialPageState
      { url := "https://outside.example.net/app.js", resourceType := "script" }
      = onRequest [] (fun _ => true) initialPageState
          { url := "https://outside.example.net/app.js", resourceType := "script" } :=
  c5_domain_rule_documents_only [] initialPageState _ (by decide) (fun _ => false) (fun _ => true)

/-- Claim C6: `_processPage` has no guard on its login-form recursion — with a
form config whose pattern matches its own post-submit URL, the recursion
never terminates: no fuel bound suffices for the run to finish. -/
theorem c6_unbounded_reentry (fuel : Nat) :
    processPage (fun u => u == "https://example.com/auth/login/")
      (fun u => u) fuel "https://example.com/auth/login/" = none := by
  induction fuel with
  | zero => rfl
  | succ n ih => simp [processPage, ih]

/-- Claim C7: every exit path of `Crawler._request` ends with the page closed:
normal completion, navigation timeout, non-timeout navigation error, and
post-load processing error. -/
theorem c7_session_always_closed (url navErr postErr : String)
    (nav : NavOutcome) (post : PostOutcome) :
    (requestTask url navErr postErr nav post).pageClosed = true := by
  cases nav <;> cases post <;> rfl

/-- Claim C8 counterexample: on a single-CPU machine the configured-default path
yields a ceiling of 5, not `cpus - 1 = 0` — the CLI's `cpus - 1` is falsy
there and the crawler constructor's `|| 5` fallback takes over. -/
theorem c8_counterexample :
    effectiveMaxConcurrency none 1 = 5 ∧ (1 : Int) - 1 = 0 ∧ (5 : Int) ≠ 0 := by
  constructor
  · rfl
  · exact ⟨rfl, by decide⟩

/-- Claim C8 (amended): when no concurrency value is configured and the available
parallelism minus one is nonzero, the work queue's ceiling is the number of
CPUs minus one. -/
theorem c8_default_concurrency (cpus : Int) (h : cpus - 1 ≠ 0) :
    effectiveMaxConcurrency none cpus = cpus - 1 := by
  simp [effectiveMaxConcurrency, cliMaxConcurrency, crawlerMaxConcurrency, h]

/-- Claim C8 witness: with 8 CPUs and no configured value the ceiling is 7. -/
theorem c8_witness : effectiveMaxConcurrency none 8 = 8 - 1 :=
  c8_default_concurrency 8 (by decide)

/-- Claim C10: the screenshot file name is exactly the pathname with every `.`,
`/`, `:`, `%`, `#` rewritten to `_`, truncated to 100 characters, with
`.jpeg` appended; the stem never exceeds 100 characters and contains none
of the five rewritten characters. -/
theorem c10_screenshot_filename (pathname : String) :
    screenshotFileName pathname
      = String.mk ((pathname.data.map jsReplaceSpecialChar).take 100) ++ ".jpeg"
    ∧ ((pathname.data.map jsReplaceSpecialChar).take 100).length ≤ 100
    ∧ ∀ c ∈ (pathname.data.map jsReplaceSpecialChar).take 100,
        c ≠ '.' ∧ c ≠ '/' ∧ c ≠ ':' ∧ c ≠ '%' ∧ c ≠ '#' := by
  refine ⟨?_, ?_, ?_⟩
  · unfold screenshotFileName
    by_cases h : (String.mk (pathname.data.map jsReplaceSpecialChar)).length > 100
    · simp only [h, if_pos]
    · simp only [h, if_neg, not_false_iff]
      have hlen : (pathname.data.map jsReplaceSpecialChar).length ≤ 100 :=
        Nat.le_of_not_lt h
      rw [List.take_of_length_le hlen]
  · exact List.length_take_le 100 _
  · intro c hc
    obtain ⟨a, _, ha⟩ := List.mem_map.mp (List.mem_of_mem_take hc)
    exact ha ▸ jsReplaceSpecialChar_not_special a

/-- Claim C9: the `_discoverLinks` loop body is a no-op for an empty href, and
for any href whose fragment-stripped URL contains a `SKIPPED_RESOURCES`
substring — even when the link is allowed and not yet visited. -/
theorem c9_discovery_denylist (isAllowed : String → Bool) (s : CrawlerState)
    (href : String)
    (h : href = ""
      ∨ ∃ r ∈ SKIPPED_RESOURCES, containsSubstr (stripFragment href) r = true) :
    discoverLink isAllowed s href = s := by
  rcases h with h | ⟨r, hr, hc⟩
  · simp [discoverLink, h]
  · have hany : (SKIPPED_RESOURCES.any fun p => containsSubstr (stripFragment href) p) = true :=
      List.any_eq_true.mpr ⟨r, hr, hc⟩
    unfold discoverLink
    by_cases he : href = ""
    · simp [he]
    · simp [he, hany]

/-- Claim C9 witness: a favicon link on an allowed domain, never visited, is not
enqueued. -/
theorem c9_witness :
    discoverLink (fun _ => true) initCrawler "https://example.com/favicon.ico"
      = initCrawler :=
  c9_discovery_denylist (fun _ => true) initCrawler _
    (Or.inr ⟨"favicon.ico", by decide, by decide⟩)

/-- Claim C4 counterexample: after a navigation timeout the session is marked
timed-out, yet a subsequent telemetry request on that session is still
allowed — so not *all* subsequent requests are blocked. -/
theorem c4_counterexample :
    (requestTask "https://example.com/" "TimeoutError" ""
        NavOutcome.timeout PostOutcome.ok).hasTimedOut = true
    ∧ (onRequest [] (fun _ => true)
        { resourceAttempts := fun _ => 0, hasTimedOut := true }
        { url := "https://sentry.io/api/1/store/", resourceType := "fetch" }).2
      = Decision.allow :=
  ⟨rfl, by decide⟩

/-- Claim C4 (amended): on a navigation timeout the task's error is recorded,
post-load processing still runs, and the session is marked timed-out so
that every subsequent non-telemetry request on it is blocked; on any other
navigation error the error is recorded, the session is closed, and
post-load processing is skipped. -/
theorem c4_navigation_error_paths (url navErr postErr : String)
    (post : PostOutcome) :
    ((requestTask url navErr postErr NavOutcome.timeout post).errors.head?
        = some (url, navErr)
      ∧ (requestTask url navErr postErr NavOutcome.timeout post).postLoadRun = true
      ∧ (requestTask url navErr postErr NavOutcome.timeout post).hasTimedOut = true)
    ∧ requestTask url navErr postErr NavOutcome.failure post
        = { errors := [(url, navErr)], pageClosed := true, postLoadRun := false
            hasTimedOut := false }
    ∧ (∀ (blockList : List String) (isAllowed : String → Bool)
          (st : PageState) (req : Request),
        st.hasTimedOut = true →
        isSentryResource (normalizeUrl req.url) = false →
        (onRequest blockList isAllowed st req).2 = Decision.block) := by
  refine ⟨?_, rfl, ?_⟩
  · cases post <;> exact ⟨rfl, rfl, rfl⟩
  · intro bl f st req ht hs
    simp [onRequest, hs, ht]

/-- Claim C4 witness: a non-telemetry request on a timed-out session is blocked,
instantiated from the amended theorem. -/
theorem c4_witness :
    (onRequest [] (fun _ => true)
      { resourceAttempts := fun _ => 0, hasTimedOut := true }
      { url := "https://example.com/page", resourceType := "script" }).2
      = Decision.block :=
  (c4_navigation_error_paths "u" "e" "p" PostOutcome.ok).2.2 [] (fun _ => true)
    _ _ rfl (by decide)

lemma onRequest_fst (blockList : List String) (isAllowed : String → Bool)
    (st : PageState) (req : Request) :
    (onRequest blockList isAllowed st req).1
      = { st with resourceAttempts := fun u =>
            if u = normalizeUrl req.url
            then st.resourceAttempts (normalizeUrl req.url) + 1
            else st.resourceAttempts u } := rfl

lemma onRequest_decision_no_rule (blockList : List String)
    (isAllowed : String → Bool) (st : PageState) (req : Request)
    (ht : st.hasTimedOut = false) (h : NoBlockingRule blockList isAllowed req) :
    (onRequest blockList isAllowed st req).2
      = if st.resourceAttempts (normalizeUrl req.url) + 1 > 5
        then Decision.block else Decision.allow := by
  obtain ⟨h1, h2, h3, h4, h5⟩ := h
  have h2m : req.resourceType ∉ BLOCKED_RESOURCE_TYPES := by
    simpa using h2
  simp [onRequest, h1, h2m, h3, h4, h5, ht]

lemma runRequests_retry (blockList : List String) (isAllowed : String → Bool)
    (u : String) :
    ∀ (reqs : List Request) (st : PageState) (k : Nat),
      st.hasTimedOut = false →
      st.resourceAttempts u = k →
      (∀ r ∈ reqs, normalizeUrl r.url = u → NoBlockingRule blockList isAllowed r) →
      ∀ (i : Nat) (hi : i < reqs.length),
        normalizeUrl (reqs.get ⟨i, hi⟩).url = u →
        (runRequests blockList isAllowed st reqs).2[i]?
          = some (if k + (reqs.take i).countP (fun x => normalizeUrl x.url == u) < 5
                  then Decision.allow else Decision.block) := by
  intro reqs
  induction reqs with
  | nil =>
    intro st k _ _ _ i hi
    simp at hi
  | cons r rs ih =>
    intro st k ht hk hall i hi hu
    have hst2 : (onRequest blockList isAllowed st r).1.hasTimedOut = false := by
      rw [onRequest_fst]
      exact ht
    match i with
    | 0 =>
      have hru : normalizeUrl r.url = u := hu
      have hnb := hall r (List.mem_cons_self r rs) hru
      have hd : (onRequest blockList isAllowed st r).2
          = if k + 1 > 5 then Decision.block else Decision.allow := by
        rw [onRequest_decision_no_rule blockList isAllowed st r ht hnb, hru, hk]
      simp only [runRequests, List.getElem?_cons_zero, hd, List.take_zero,
        List.countP_nil, Nat.add_zero]
      by_cases h5 : k < 5
      · have hgt : ¬ (k + 1 > 5) := by omega
        simp [hgt, h5]
      · have hgt : k + 1 > 5 := by omega
        simp [hgt, h5]
    | i + 1 =>
      have hk1 : (onRequest blockList isAllowed st r).1.resourceAttempts u
          = if u = normalizeUrl r.url
            then st.resourceAttempts (normalizeUrl r.url) + 1
            else st.resourceAttempts u := by
        rw [onRequest_fst]
      have hi2 : i < rs.length := Nat.lt_of_succ_lt_succ hi
      have hu2 : normalizeUrl (rs.get ⟨i, hi2⟩).url = u := hu
      have hrec := ih (onRequest blockList isAllowed st r).1
        ((onRequest blockList isAllowed st r).1.resourceAttempts u) hst2 rfl
        (fun x hx => hall x (List.mem_cons_of_mem r hx)) i hi2 hu2
      have hcnt : (onRequest blockList isAllowed st r).1.resourceAttempts u
            + (rs.take i).countP (fun x => normalizeUrl x.url == u)
          = k + (((r :: rs).take (i + 1)).countP (fun x => normalizeUrl x.url == u)) := by
        rw [List.take_succ_cons, List.countP_cons, hk1]
        by_cases hc : normalizeUrl r.url = u
        · rw [if_pos hc.symm, hc, hk]
          have hb : (normalizeUrl r.url == u) = true := beq_iff_eq.mpr hc
          simp [hb]
          omega
        · rw [if_neg (fun h => hc h.symm), hk]
          have hb : (normalizeUrl r.url == u) = false := beq_eq_false_iff_ne.mpr hc
          simp [hb]
      rw [hcnt] at hrec
      simp only [runRequests, List.getElem?_cons_succ]
      exact hrec

/-- Claim C3: within one page load (fresh attempt counter), for any sequence of
intercepted requests in which every request normalizing to `u` fires no
other blocking rule, a request to `u` is allowed exactly when fewer than 5
earlier requests of the load normalized to `u` — i.e. requests 1–5 to that
URL are allowed and the 6th and every later one is blocked, counted per
normalized URL even in mixed-URL loads. -/
theorem c3_retry_ceiling (blockList : List String) (isAllowed : String → Bool)
    (reqs : List Request) (u : String)
    (h : ∀ r ∈ reqs, normalizeUrl r.url = u → NoBlockingRule blockList isAllowed r)
    (i : Nat) (hi : i < reqs.length)
    (hu : normalizeUrl (reqs.get ⟨i, hi⟩).url = u) :
    (runRequests blockList isAllowed initialPageState reqs).2[i]?
      = some (if (reqs.take i).countP (fun x => normalizeUrl x.url == u) < 5
              then Decision.allow else Decision.block) := by
  have := runRequests_retry blockList isAllowed u reqs initialPageState 0 rfl rfl h i hi hu
  simpa using this

/-- Claim C3 witness: in a mixed load of five stylesheet requests to one URL
followed by six script requests to another, the first script request (the
6th request of the load) is still allowed — the counter is per URL, not
global — and the 6th script request (the 11th of the load) is blocked. -/
theorem c3_witness :
    (runRequests [] (fun _ => true) initialPageState demoLoad).2[5]?
      = some Decision.allow
    ∧ (runRequests [] (fun _ => true) initialPageState demoLoad).2[10]?
      = some Decision.block := by
  have hall : ∀ r ∈ demoLoad,
      normalizeUrl r.url = "https://example.com/app.js"
      → NoBlockingRule [] (fun _ => true) r := by
    intro r hr hru
    rcases List.mem_append.mp hr with hm | hm
    · rw [List.eq_of_mem_replicate hm] at hru
      exact absurd hru (by decide)
    · rw [List.eq_of_mem_replicate hm]
      exact ⟨by decide, by decide, by decide, by decide, by decide⟩
  constructor
  · have h5 := c3_retry_ceiling [] (fun _ => true) demoLoad
      "https://example.com/app.js" hall 5 (by decide) (by decide)
    rw [h5]
    decide
  · have h10 := c3_retry_ceiling [] (fun _ => true) demoLoad
      "https://example.com/app.js" hall 10 (by decide) (by decide)
    rw [h10]
    decide

/-- Claim C1 counterexample: `Crawler.queue` never consults the visited ledger —
seeding the same URL twice yields two Tasks for one canonical URL, even
though the URL was already in the ledger at the second call. -/
theorem c1_counterexample :
    "https://example.com/" ∈ (queue initCrawler "https://example.com/").visited
    ∧ ((queue (queue initCrawler "https://example.com/")
          "https://example.com/").queue.countP
        (fun t => stripFragment t.url == "https://example.com/")) = 2 :=
  ⟨by decide, by decide⟩

lemma ledgerInv_init : LedgerInv initCrawler := by
  constructor
  · intro t ht
    simp [initCrawler] at ht
  · simp [initCrawler, LedgerInv]

lemma queue_ledgerInv (s : CrawlerState) (url : String)
    (hfree : url ∉ s.visited) (hcanon : stripFragment url = url)
    (hinv : LedgerInv s) : LedgerInv (queue s url) := by
  obtain ⟨h1, h2⟩ := hinv
  constructor
  · intro t ht
    simp only [queue, pushTask, List.mem_append, List.mem_singleton] at ht
    rcases ht with ht | ht
    · obtain ⟨hc, hv⟩ := h1 t ht
      exact ⟨hc, List.mem_cons_of_mem _ hv⟩
    · subst ht
      exact ⟨hcanon, List.mem_cons_self _ _⟩
  · simp only [queue, pushTask]
    rw [List.pairwise_append]
    refine ⟨h2, List.pairwise_singleton _ _, ?_⟩
    intro a ha b hb
    rw [List.mem_singleton] at hb
    subst hb
    intro hEq
    have hEq2 : a.url = url := hEq
    exact hfree (hEq2 ▸ (h1 a ha).2)

lemma discoverLink_ledgerInv (isAllowed : String → Bool) (s : CrawlerState)
    (href : String) (hinv : LedgerInv s) :
    LedgerInv (discoverLink isAllowed s href) := by
  unfold discoverLink
  split
  · exact hinv
  · split
    · rename_i hg
      have hb : (!s.visited.contains (stripFragment href)) = true := by
        rw [Bool.and_assoc] at hg
        exact ((Bool.and_eq_true _ _).mp ((Bool.and_eq_true _ _).mp hg).2).1
      have hnv : stripFragment href ∉ s.visited := by
        simpa using hb
      exact queue_ledgerInv s _ hnv (stripFragment_idem href) hinv
    · exact hinv

lemma discoverLinks_ledgerInv (isAllowed : String → Bool) (hrefs : List String) :
    ∀ s : CrawlerState, LedgerInv s → LedgerInv (discoverLinks isAllowed s hrefs) := by
  induction hrefs with
  | nil => intro s h; exact h
  | cons a l ih =>
    intro s h
    have : discoverLinks isAllowed s (a :: l)
        = discoverLinks isAllowed (discoverLink isAllowed s a) l := rfl
    rw [this]
    exact ih _ (discoverLink_ledgerInv isAllowed s a h)

lemma countP_canonical_le_one (c : String) :
    ∀ l : List Task, (∀ t ∈ l, stripFragment t.url = t.url) →
      l.Pairwise (fun a b => a.url ≠ b.url) →
      l.countP (fun t => stripFragment t.url == c) ≤ 1 := by
  intro l
  induction l with
  | nil =>
    intro _ _
    simp
  | cons a l ih =>
    intro hcanon hpw
    rw [List.countP_cons]
    rcases List.pairwise_cons.mp hpw with ⟨hne, hpl⟩
    by_cases hp : (stripFragment a.url == c) = true
    · have hac : a.url = c := by
        have hbe := beq_iff_eq.mp hp
        rw [hcanon a (List.mem_cons_self a l)] at hbe
        exact hbe
      have hz : l.countP (fun t => stripFragment t.url == c) = 0 := by
        rw [List.countP_eq_zero]
        intro t htl hpt
        have htc : t.url = c := by
          have hbe := beq_iff_eq.mp hpt
          rw [hcanon t (List.mem_cons_of_mem a htl)] at hbe
          exact hbe
        exact hne t htl (by rw [hac, htc])
      simp [hz, hp]
    · have hp' : (stripFragment a.url == c) = false := by
        simpa using hp
      simp only [hp', if_false]
      exact ih (fun t ht => hcanon t (List.mem_cons_of_mem a ht)) hpl

/-- Claim C1 (amended): the discovery path deduplicates against the ledger —
after seeding one fragment-free URL and running any sequence of link
discoveries, the queue holds at most one Task per canonical URL. (The
direct `Crawler.queue` path itself does not consult the ledger.) -/
theorem c1_discovery_dedup (isAllowed : String → Bool) (seed : String)
    (hrefs : List String) (hseed : stripFragment seed = seed) (c : String) :
    ((discoverLinks isAllowed (queue initCrawler seed) hrefs).queue.countP
        (fun t => stripFragment t.url == c)) ≤ 1 := by
  have h0 : LedgerInv (queue initCrawler seed) :=
    queue_ledgerInv initCrawler seed (by simp [initCrawler]) hseed ledgerInv_init
  have h1 := discoverLinks_ledgerInv isAllowed hrefs _ h0
  exact countP_canonical_le_one c _ (fun t ht => (h1.1 t ht).1) h1.2

/-- Claim C1 witness: seed plus discoveries containing a duplicate (same URL with
and without a fragment) still yield at most one Task for that URL. -/
theorem c1_witness :
    ((discoverLinks (fun _ => true) (queue initCrawler "https://example.com/")
        ["https://example.com/a", "https://example.com/a#x",
         "https://example.com/"]).queue.countP
      (fun t => stripFragment t.url == "https://example.com/a")) ≤ 1 :=
  c1_discovery_dedup (fun _ => true) "https://example.com/" _ (by decide)
    "https://example.com/a"

end Inhuman
